import Mathlib

/-!
Shallow embedding of the gqls incremental-analysis core (andyyu2004/gqls).

The definitions below are translated from the Rust sources:
  * src/gqls-ir/src/db.rs       (items / item_map / resolve queries)
  * src/gqls-ir/src/lower.rs    (item-skeleton and item-body lowering)
  * src/gqls-ir/src/ty.rs       (IR types)
  * src/gqls-syntax/src/lib.rs  (NodeExt::sole_named_child)
  * src/gqls-ide/src/completions.rs (completion candidate filtering)

Rust panics (unreachable!, unwrap, asserts, out-of-bounds indexing) are modelled as
the Except.error case, so a query that can panic has type Except String α; a query
that returns a value is Except.ok.  Arc / interning is erased (values compared
structurally).  Definitions for pieces of the repository that are not present under
src/ (gqls-base-db, the gqls-ir lib module, the gqls-ide snapshot plumbing, the
vendored tree-sitter grammar) carry a doc comment starting with
"Modelled from the spec:".
-/

namespace Gqls

/-- Source range of a syntax node.  Only identity matters for the theorems below,
so the byte span suffices (tree-sitter ranges also carry points). -/
structure Range where
  start_byte : Nat
  end_byte : Nat
deriving DecidableEq, Repr

/-- Modelled from the spec: gqls-ir's lib module is absent from src/.  A Name is
(text, source range); per spec section 3 two names compare equal by text only, so
every map below is keyed by the name field alone. -/
structure Name where
  name : String
  range : Range
deriving DecidableEq, Repr

/-- FileId: opaque interned identifier for a path (vfs::FileId). -/
abbrev FileId := Nat

/-- Item reference: (file, arena index).  gqls-ir tests and ty.rs call this
ItemRes { file, idx }; the older db.rs spells it Res { path, idx }. -/
structure ItemRes where
  file : FileId
  idx : Nat
deriving DecidableEq, Repr

/-- Modelled from the spec: the gqls-ir lib module is absent from src/.  Per spec
section 3 a Resolution is either a non-empty list of ItemRes or a distinguished
Err; ty.rs pattern-matches Res.Item and lower.rs pattern-matches Res.Err. -/
inductive Res where
  | Item (resolutions : List ItemRes)
  | Err
deriving DecidableEq, Repr

/-- Directive-location bitset (bitflags over Nat). -/
abbrev DirectiveLocations := Nat

namespace DirectiveLocations

/-- Modelled from the spec: the bitflags declaration lives in the absent gqls-ir lib
module; the 11 standard SDL locations are distinct single-bit flags, listed in the
order of the match arms of ItemCtxt::lower_item (lower.rs:334-344). -/
def ARGUMENT_DEFINITION : DirectiveLocations := 1

/-- Flag for the ENUM location. -/
def ENUM : DirectiveLocations := 2

/-- Flag for the ENUM_VALUE location. -/
def ENUM_VALUE : DirectiveLocations := 4

/-- Flag for the FIELD_DEFINITION location. -/
def FIELD_DEFINITION : DirectiveLocations := 8

/-- Flag for the INPUT_FIELD_DEFINITION location. -/
def INPUT_FIELD_DEFINITION : DirectiveLocations := 16

/-- Flag for the INPUT_OBJECT location. -/
def INPUT_OBJECT : DirectiveLocations := 32

/-- Flag for the INTERFACE location. -/
def INTERFACE : DirectiveLocations := 64

/-- Flag for the OBJECT location. -/
def OBJECT : DirectiveLocations := 128

/-- Flag for the SCALAR location. -/
def SCALAR : DirectiveLocations := 256

/-- Flag for the SCHEMA location. -/
def SCHEMA : DirectiveLocations := 512

/-- Flag for the UNION location. -/
def UNION : DirectiveLocations := 1024

/-- Bitflags contains: self & other == other. -/
def contains (s other : DirectiveLocations) : Bool :=
  s &&& other == other

end DirectiveLocations

/-- The 11 standard SDL directive locations, as an enumeration used to state the
exactness of the lowered bitset. -/
inductive DirectiveLocation where
  | ARGUMENT_DEFINITION
  | ENUM
  | ENUM_VALUE
  | FIELD_DEFINITION
  | INPUT_FIELD_DEFINITION
  | INPUT_OBJECT
  | INTERFACE
  | OBJECT
  | SCALAR
  | SCHEMA
  | UNION
deriving DecidableEq, Repr, Fintype

/-- Bit position of each location's flag. -/
def DirectiveLocation.bit : DirectiveLocation → Nat
  | .ARGUMENT_DEFINITION => 0
  | .ENUM => 1
  | .ENUM_VALUE => 2
  | .FIELD_DEFINITION => 3
  | .INPUT_FIELD_DEFINITION => 4
  | .INPUT_OBJECT => 5
  | .INTERFACE => 6
  | .OBJECT => 7
  | .SCALAR => 8
  | .SCHEMA => 9
  | .UNION => 10

/-- Single-bit flag of each location. -/
def DirectiveLocation.flag (l : DirectiveLocation) : DirectiveLocations :=
  2 ^ l.bit

/-- Source token of each location (the node kinds matched at lower.rs:334-344). -/
def DirectiveLocation.token : DirectiveLocation → String
  | .ARGUMENT_DEFINITION => "ARGUMENT_DEFINITION"
  | .ENUM => "ENUM"
  | .ENUM_VALUE => "ENUM_VALUE"
  | .FIELD_DEFINITION => "FIELD_DEFINITION"
  | .INPUT_FIELD_DEFINITION => "INPUT_FIELD_DEFINITION"
  | .INPUT_OBJECT => "INPUT_OBJECT"
  | .INTERFACE => "INTERFACE"
  | .OBJECT => "OBJECT"
  | .SCALAR => "SCALAR"
  | .SCHEMA => "SCHEMA"
  | .UNION => "UNION"

/-- TypeDefinitionKind (lower.rs:282-287). -/
inductive TypeDefinitionKind where
  | Object
  | Interface
  | Scalar
  | Enum
  | Union
  | Input
deriving DecidableEq, Repr

/-- Lowered directive occurrence (LowerCtxt::lower_directive, lower.rs:394-399). -/
structure Directive where
  range : Range
  name : Name
deriving DecidableEq, Repr

/-- TypeDefinition arena entry (lower.rs:298-303 / 319-324). -/
structure TypeDefinition where
  is_ext : Bool
  kind : TypeDefinitionKind
  directives : List Directive
  implementations : Option (List Name)
deriving DecidableEq, Repr

/-- DirectiveDefinition arena entry (lower.rs:354). -/
structure DirectiveDefinition where
  locations : DirectiveLocations
deriving DecidableEq, Repr

/-- ItemKind: tagged index into the side arenas. -/
inductive ItemKind where
  | TypeDefinition (idx : Nat)
  | DirectiveDefinition (idx : Nat)
deriving DecidableEq, Repr

/-- Item: a root-level definition (lower.rs:361). -/
structure Item where
  range : Range
  name : Name
  kind : ItemKind
deriving DecidableEq, Repr

/-- Items: the per-file arenas (lower.rs:272).  Arenas are dense lists; the arena
index of an element is its list position. -/
structure Items where
  items : List Item
  typedefs : List TypeDefinition
  directives : List DirectiveDefinition
deriving DecidableEq, Repr

/-! ## Item map and resolver (gqls-ir/src/db.rs) -/

/-- ItemMap: Mapping from Name to list of arena indices.  The Rust HashMap is
modelled as an association list in key-insertion order; keys are the name texts
because Names compare by text only. -/
abbrev ItemMap := List (String × List Nat)

/-- Lookup in the item map (HashMap::get). -/
def ItemMap.get? : ItemMap → String → Option (List Nat)
  | [], _ => none
  | (k, v) :: rest, n => if k = n then some v else ItemMap.get? rest n

/-- One step of item_map construction: map.entry(item.name()).or_default().push(idx)
(db.rs:30). -/
def push_idx : ItemMap → String → Nat → ItemMap
  | [], n, i => [(n, [i])]
  | (k, v) :: rest, n, i =>
    if k = n then (k, v ++ [i]) :: rest else (k, v) :: push_idx rest n i

/-- item_map query (db.rs:26-33): iterate the file's items in arena order, pushing
each index into the entry for the item's name. -/
def item_map (items : List Item) : ItemMap :=
  items.enum.foldl (fun m p => push_idx m p.2.name.name p.1) []

/-- The database inputs that the resolver claims depend on: the project
configuration (mapping ProjectName to file set) and the items query output per
file.  set_projects stores a HashMap of HashSets; the association list fixes one
enumeration of it. -/
structure DB where
  projects : List (String × List FileId)
  items : FileId → List Item

/-- Modelled from the spec: gqls-base-db is absent from src/.  Spec section 4.2:
files() is the union of all project members.  The union is a hash set; this
canonical enumeration lists members in project-listing order, and resolve_with
below makes the enumeration order explicit. -/
def files (db : DB) : List FileId :=
  (db.projects.foldl (fun acc p => acc ++ p.2) []).dedup

/-- Modelled from the spec: project_of / neighborhood (spec sections 3 and 4.2,
gqls-base-db absent from src/): the union of the file sets of every project
containing the file, including the file itself. -/
def neighborhood (db : DB) (f : FileId) : List FileId :=
  (f :: (db.projects.filter (fun p => p.2.contains f)).foldl (fun acc p => acc ++ p.2) []).dedup

/-- resolve query body (db.rs:35-46) with the iteration order of the file set made
explicit: for path in ord { if let Some(items) = item_map(path).get(name)
{ for idx in items { resolutions.push(Res { path, idx }) } } }. -/
def resolve_with (db : DB) (ord : List FileId) (name : String) : List ItemRes :=
  ord.foldl (fun acc path =>
    match ItemMap.get? (item_map (db.items path)) name with
    | some idxs => acc ++ idxs.map (fun idx => ItemRes.mk path idx)
    | none => acc) []

/-- resolve query (db.rs:35-46): iterates db.files() — all files of all projects,
not a neighborhood — under the canonical enumeration of the file set. -/
def resolve (db : DB) (name : String) : List ItemRes :=
  resolve_with db (files db) name

/-! ## IR types and body lowering (gqls-ir/src/ty.rs, gqls-ir/src/lower.rs) -/

/-- DiagnosticKind: lower.rs emits UnresolvedType (lower.rs:245). -/
inductive DiagnosticKind where
  | UnresolvedType (name : Name)
deriving DecidableEq, Repr

/-- Diagnostic carried by an item body. -/
structure Diagnostic where
  range : Range
  kind : DiagnosticKind
deriving DecidableEq, Repr

mutual
/-- Type (ty.rs:8-11): range plus kind; Ty = Arc of Type, interning erased. -/
inductive TypeIR where
  | mk (range : Range) (kind : TyKind)
/-- TyKind (ty.rs:34-39). -/
inductive TyKind where
  | Named (name : Name) (res : Res)
  | NonNull (ty : TypeIR)
  | List (ty : TypeIR)
  | Err (name : Name)
end

/-- Range accessor of TypeIR. -/
def TypeIR.range : TypeIR → Range
  | .mk r _ => r

/-- Kind accessor of TypeIR. -/
def TypeIR.kind : TypeIR → TyKind
  | .mk _ k => k

/-- A NAMED_TYPE syntax node, as consumed by BodyCtxt::lower_named_type: its text
and range (Name::new reads both). -/
structure NamedTypeNode where
  text : String
  range : Range
deriving DecidableEq, Repr

/-- BodyCtxt::lower_named_type (lower.rs:237-251).  The resolver is the
resolve_item query (its implementation is not under src/), passed as a function;
the BodyCtxt state is the diagnostics accumulator, threaded explicitly. -/
def lower_named_type (resolve_item : FileId → Name → Res) (file : FileId)
    (diagnostics : List Diagnostic) (node : NamedTypeNode) : TypeIR × List Diagnostic :=
  let name : Name := ⟨node.text, node.range⟩
  let range := name.range
  match resolve_item file name with
  | .Err =>
    (TypeIR.mk range (.Err name),
      diagnostics ++ [⟨range, .UnresolvedType name⟩])
  | res => (TypeIR.mk range (.Named name res), diagnostics)

/-! ## Constant values (BodyCtxt::lower_value, lower.rs:141-171) -/

/-- Modelled from the spec: the Value IR lives in the absent gqls-ir lib module;
spec section 3 lists String, Int, Float, Boolean, Null, Enum, List, Object.  Int is
a fixed-width machine integer (Rust parse::<i64>); Float keeps its token since f64
parsing of a float token never fails (overflow yields infinity). -/
inductive Value where
  | String (s : String)
  | Int (i : Int)
  | Float (token : String)
  | Boolean (b : Bool)
  | Null
  | Enum (s : String)
  | List (vs : List Value)
  | Object (fs : List (Name × Value))

mutual
/-- A VALUE syntax node: sole_named_child may be absent (lower.rs:143). -/
inductive ValueNode where
  | mk (inner : Option ValueInner)
/-- The named child of a VALUE node, by node kind (lower.rs:145-168). -/
inductive ValueInner where
  | string_value (text : String)
  | int_value (text : String)
  | float_value (text : String)
  | boolean_value (text : String)
  | null_value
  | enum_value (text : String)
  | list_value (values : List ValueNode)
  | object_value (fields : List ObjectFieldNode)
  | other_kind (kind : String)
/-- An OBJECT_FIELD node: optional name child and optional VALUE child. -/
inductive ObjectFieldNode where
  | mk (name : Option Name) (value : Option ValueNode)
end

/-- str::trim_matches applied with the quote character (lower.rs:146). -/
def trim_quotes (s : String) : String :=
  String.mk ((((s.data.dropWhile (fun c => c = '"')).reverse.dropWhile
    (fun c => c = '"')).reverse))

/-- Decimal digit of a character, if any. -/
def char_digit? (c : Char) : Option Nat :=
  if '0' ≤ c ∧ c ≤ '9' then some (c.toNat - '0'.toNat) else none

/-- Value of a non-empty all-digit character run. -/
def digits_val (cs : List Char) : Option Nat :=
  if cs.isEmpty then none
  else cs.foldl (fun acc c =>
    match acc, char_digit? c with
    | some a, some d => some (a * 10 + d)
    | _, _ => none) (some 0)

/-- Rust str::parse::<i64>: none exactly when the text is not a well-formed
integer or falls outside the i64 range [-2^63, 2^63 - 1]. -/
def parse_i64 (s : String) : Option Int :=
  match s.data with
  | '-' :: rest =>
    match digits_val rest with
    | none => none
    | some n => if -(n : Int) < -(2 : Int) ^ 63 then none else some (-(n : Int))
  | cs =>
    match digits_val cs with
    | none => none
    | some n => if (2 : Int) ^ 63 - 1 < (n : Int) then none else some (n : Int)

mutual
/-- BodyCtxt::lower_value (lower.rs:141-171).  unwrap / unreachable are the error
case; an absent sole named child is ok none (the subvalue is skipped). -/
def lower_value : ValueNode → Except String (Option Value)
  | .mk none => .ok none
  | .mk (some inner) =>
    match inner with
    | .string_value t => .ok (some (.String (trim_quotes t)))
    | .int_value t =>
      match parse_i64 t with
      | some i => .ok (some (.Int i))
      | none => .error "called Result::unwrap on an Err value"
    | .float_value t => .ok (some (.Float t))
    | .boolean_value t =>
      if t = "true" then .ok (some (.Boolean true))
      else if t = "false" then .ok (some (.Boolean false))
      else .error "internal error: entered unreachable code"
    | .null_value => .ok (some .Null)
    | .enum_value t => .ok (some (.Enum t))
    | .list_value vs =>
      match lower_values vs with
      | .error e => .error e
      | .ok l => .ok (some (.List l))
    | .object_value fs =>
      match lower_object_fields fs with
      | .error e => .error e
      | .ok l => .ok (some (.Object l))
    | .other_kind k => .error ("internal error: entered unreachable code: " ++ k)
/-- children_of_kind(VALUE).filter_map(lower_value) (lower.rs:156-161). -/
def lower_values : List ValueNode → Except String (List Value)
  | [] => .ok []
  | v :: rest =>
    match lower_value v with
    | .error e => .error e
    | .ok none => lower_values rest
    | .ok (some x) =>
      match lower_values rest with
      | .error e => .error e
      | .ok l => .ok (x :: l)
/-- BodyCtxt::lower_object_field (lower.rs:173-176). -/
def lower_object_field : ObjectFieldNode → Except String (Option (Name × Value))
  | .mk none _ => .ok none
  | .mk (some _) none => .ok none
  | .mk (some n) (some v) =>
    match lower_value v with
    | .error e => .error e
    | .ok none => .ok none
    | .ok (some x) => .ok (some (n, x))
/-- children_of_kind(OBJECT_FIELD).filter_map(lower_object_field)
(lower.rs:162-167). -/
def lower_object_fields : List ObjectFieldNode → Except String (List (Name × Value))
  | [] => .ok []
  | f :: rest =>
    match lower_object_field f with
    | .error e => .error e
    | .ok none => lower_object_fields rest
    | .ok (some x) =>
      match lower_object_fields rest with
      | .error e => .error e
      | .ok l => .ok (x :: l)
end

/-! ## Item skeleton lowering (ItemCtxt, lower.rs:254-374) -/

/-- A DIRECTIVE_LOCATION node: the kind of its child under field "location", when
that field is present (lower.rs:333). -/
structure DirectiveLocationNode where
  location : Option String
deriving DecidableEq, Repr

/-- The match over location kinds (lower.rs:334-344), yielding the bitflag of a
known token; none stands for the unreachable arm. -/
def lower_directive_location_kind : String → Option DirectiveLocations
  | "ARGUMENT_DEFINITION" => some DirectiveLocations.ARGUMENT_DEFINITION
  | "ENUM" => some DirectiveLocations.ENUM
  | "ENUM_VALUE" => some DirectiveLocations.ENUM_VALUE
  | "FIELD_DEFINITION" => some DirectiveLocations.FIELD_DEFINITION
  | "INPUT_FIELD_DEFINITION" => some DirectiveLocations.INPUT_FIELD_DEFINITION
  | "INPUT_OBJECT" => some DirectiveLocations.INPUT_OBJECT
  | "INTERFACE" => some DirectiveLocations.INTERFACE
  | "OBJECT" => some DirectiveLocations.OBJECT
  | "SCALAR" => some DirectiveLocations.SCALAR
  | "SCHEMA" => some DirectiveLocations.SCHEMA
  | "UNION" => some DirectiveLocations.UNION
  | _ => none

/-- The locations pipeline of the DIRECTIVE_DEFINITION arm (lower.rs:330-350):
filter_map over DIRECTIVE_LOCATION children — skipping nodes without a "location"
field, panicking (unreachable!) on an unknown token — fused with the fold
acc | location starting from the empty bitset. -/
def lower_directive_locations (acc : DirectiveLocations) :
    List DirectiveLocationNode → Except String DirectiveLocations
  | [] => .ok acc
  | n :: rest =>
    match n.location with
    | none => lower_directive_locations acc rest
    | some k =>
      match lower_directive_location_kind k with
      | some fl => lower_directive_locations (acc ||| fl) rest
      | none => .error ("found invalid directive location: " ++ k)

/-- A DIRECTIVE node under a DIRECTIVES child: range plus optional name child. -/
structure DirectiveNode where
  range : Range
  name : Option Name
deriving DecidableEq, Repr

/-- LowerCtxt::lower_directives_of (lower.rs:381-399): directives without a name
node are skipped. -/
def lower_directives_of (dirs : List DirectiveNode) : List Directive :=
  dirs.filterMap (fun d => d.name.map (fun n => Directive.mk d.range n))

/-- The payload of a TYPE_DEFINITION / TYPE_EXTENSION sole named child: its node
kind, optional name child, optional IMPLEMENTS_INTERFACES child (already a list of
NAMED_TYPE names), and the DIRECTIVE children of its DIRECTIVES child. -/
structure TypedefNode where
  kind : String
  name : Option Name
  implementations : Option (List Name)
  directives : List DirectiveNode
deriving DecidableEq, Repr

/-- The sole named child of an ITEM node, by kind (lower.rs:278-359).  The inner
Option models the nested sole_named_child of the TYPE_DEFINITION / TYPE_EXTENSION
wrapper. -/
inductive DefKind where
  | type_definition (inner : Option TypedefNode)
  | type_extension (inner : Option TypedefNode)
  | directive_definition (name : Option Name) (locations : Option (List DirectiveLocationNode))
  | other_kind (kind : String)
deriving DecidableEq, Repr

/-- An ITEM's definition node: its range (used for Item.range) and kind. -/
structure DefNode where
  range : Range
  kind : DefKind
deriving DecidableEq, Repr

/-- ItemCtxt arenas (lower.rs:254-258). -/
structure ItemCtxt where
  typedefs : List TypeDefinition
  directives : List DirectiveDefinition
deriving DecidableEq, Repr

/-- The TypeDefinitionKind match (lower.rs:281-291); the wildcard arm is
unreachable! and aborts the query. -/
def type_definition_kind : String → Except String TypeDefinitionKind
  | "object_type_definition" => .ok .Object
  | "interface_type_definition" => .ok .Interface
  | "scalar_type_definition" => .ok .Scalar
  | "enum_type_definition" => .ok .Enum
  | "union_type_definition" => .ok .Union
  | "input_object_type_definition" => .ok .Input
  | k => .error ("invalid node kind for type definition: " ++ k)

/-- ItemCtxt::lower_item (lower.rs:275-362).  The ITEM argument is the result of
node.sole_named_child(); none skips the item, arenas are threaded explicitly, and
panics are the error case. -/
def lower_item (ctxt : ItemCtxt) (node : Option DefNode) :
    Except String (ItemCtxt × Option Item) :=
  match node with
  | none => .ok (ctxt, none)
  | some d =>
    match d.kind with
    | .type_definition none => .ok (ctxt, none)
    | .type_definition (some td) =>
      match type_definition_kind td.kind with
      | .error e => .error e
      | .ok k =>
        match td.name with
        | none => .ok (ctxt, none)
        | some name =>
          let directives := lower_directives_of td.directives
          let implementations := td.implementations
          let idx := ctxt.typedefs.length
          .ok ({ ctxt with
                  typedefs := ctxt.typedefs ++ [⟨false, k, directives, implementations⟩] },
               some ⟨d.range, name, .TypeDefinition idx⟩)
    | .type_extension none => .ok (ctxt, none)
    | .type_extension (some te) =>
      match te.kind with
      | "object_type_extension" =>
        match te.name with
        | none => .ok (ctxt, none)
        | some name =>
          let directives := lower_directives_of te.directives
          let implementations := te.implementations
          let idx := ctxt.typedefs.length
          .ok ({ ctxt with
                  typedefs := ctxt.typedefs ++ [⟨true, .Object, directives, implementations⟩] },
               some ⟨d.range, name, .TypeDefinition idx⟩)
      | _ => .ok (ctxt, none)
    | .directive_definition name locations =>
      match name with
      | none => .ok (ctxt, none)
      | some n =>
        match locations with
        | none => .ok (ctxt, none)
        | some lnodes =>
          match lower_directive_locations 0 lnodes with
          | .error e => .error e
          | .ok locs =>
            let idx := ctxt.directives.length
            .ok ({ ctxt with directives := ctxt.directives ++ [⟨locs⟩] },
                 some ⟨d.range, n, .DirectiveDefinition idx⟩)
    | .other_kind _ => .ok (ctxt, none)

/-- The filter_map over root items inside ItemCtxt::lower (lower.rs:265-273),
threading the arenas. -/
def lower_items_aux (ctxt : ItemCtxt) (acc : List Item) :
    List (Option DefNode) → Except String (ItemCtxt × List Item)
  | [] => .ok (ctxt, acc)
  | n :: rest =>
    match lower_item ctxt n with
    | .error e => .error e
    | .ok (ctxt', none) => lower_items_aux ctxt' acc rest
    | .ok (ctxt', some it) => lower_items_aux ctxt' (acc ++ [it]) rest

/-- ItemCtxt::lower / the items query (lower.rs:265-273): lower every relevant
root child of the parse tree into the per-file Items. -/
def lower_file (nodes : List (Option DefNode)) : Except String Items :=
  match lower_items_aux ⟨[], []⟩ [] nodes with
  | .error e => .error e
  | .ok (ctxt, its) => .ok ⟨its, ctxt.typedefs, ctxt.directives⟩

/-! ## sole_named_child (gqls-syntax/src/lib.rs:132-148) -/

/-- A tree-sitter node, reduced to what sole_named_child inspects: kind, the ERROR
flag, and the named children (which include ERROR nodes, per the source comment). -/
inductive SyntaxNode where
  | mk (kind : String) (is_error : Bool) (named_children : List SyntaxNode)

/-- The ERROR flag of a node. -/
def SyntaxNode.is_error : SyntaxNode → Bool
  | .mk _ e _ => e

/-- The named children of a node. -/
def SyntaxNode.named_children : SyntaxNode → List SyntaxNode
  | .mk _ _ cs => cs

/-- named_child_count. -/
def SyntaxNode.named_child_count (n : SyntaxNode) : Nat :=
  n.named_children.length

/-- NodeExt::sole_named_child (gqls-syntax lib.rs:132-148).  When the node has
more than one named child the ERROR children are filtered out, the first survivor
is taken and the assert! that no second survivor exists panics otherwise; with at
most one named child, named_child(0) is returned unfiltered. -/
def sole_named_child (n : SyntaxNode) : Except String (Option SyntaxNode) :=
  if n.named_child_count > 1 then
    match n.named_children.filter (fun c => !c.is_error) with
    | [] => .ok none
    | [c] => .ok (some c)
    | _ => .error "node had more than one named child"
  else
    .ok n.named_children.head?

/-! ## Completions (gqls-ide/src/completions.rs) -/

/-- CompletionItemKind (completions.rs:22-32). -/
inductive CompletionItemKind where
  | Object
  | InputObject
  | Interface
  | Enum
  | Scalar
  | Union
  | Keyword
  | Directive (locations : DirectiveLocations)
deriving DecidableEq, Repr

/-- CompletionItem (completions.rs:11-14). -/
structure CompletionItem where
  label : String
  kind : CompletionItemKind
deriving DecidableEq, Repr

/-- Completion context (completions.rs:47-54). -/
inductive Context where
  | Document
  | InputField
  | Field
  | UnionMembers
  | Directive (location : DirectiveLocations)
deriving DecidableEq, Repr

/-- The kind computed for one item inside CompletionCtxt::items
(completions.rs:133-145): an arena lookup (panics if out of bounds) followed by
the TypeDefinitionKind / DirectiveDefinition mapping. -/
def completion_kind (its : Items) (it : Item) : Except String CompletionItemKind :=
  match it.kind with
  | .TypeDefinition idx =>
    match its.typedefs.get? idx with
    | none => .error "index out of bounds"
    | some td =>
      .ok (match td.kind with
        | .Object => .Object
        | .Input => .InputObject
        | .Interface => .Interface
        | .Scalar => .Scalar
        | .Enum => .Enum
        | .Union => .Union)
  | .DirectiveDefinition idx =>
    match its.directives.get? idx with
    | none => .error "index out of bounds"
    | some dd => .ok (.Directive dd.locations)

/-- The inner loop of CompletionCtxt::items over one file's items
(completions.rs:133-147). -/
def completion_items_of (its : Items) : List Item → Except String (List CompletionItem)
  | [] => .ok []
  | it :: rest =>
    match completion_kind its it with
    | .error e => .error e
    | .ok k =>
      match completion_items_of its rest with
      | .error e => .error e
      | .ok l => .ok (⟨it.name.name, k⟩ :: l)

/-- CompletionCtxt::items (completions.rs:128-150).  Modelled from the spec: the
project_items query (absent from src/) returns the Items of every file of the
queried file's neighborhood; its list of values is the argument here. -/
def completion_items : List Items → Except String (List CompletionItem)
  | [] => .ok []
  | its :: rest =>
    match completion_items_of its its.items with
    | .error e => .error e
    | .ok l =>
      match completion_items rest with
      | .error e => .error e
      | .ok r => .ok (l ++ r)

/-- The filter of complete_fields (completions.rs:166-177). -/
def field_filter (c : CompletionItem) : Bool :=
  match c.kind with
  | .Directive loc => DirectiveLocations.contains loc DirectiveLocations.FIELD_DEFINITION
  | .Object => true
  | .Interface => true
  | .Enum => true
  | .Scalar => true
  | .Union => true
  | .InputObject => false
  | .Keyword => false

/-- The filter of complete_input_fields (completions.rs:152-164). -/
def input_field_filter (c : CompletionItem) : Bool :=
  match c.kind with
  | .Directive loc => DirectiveLocations.contains loc DirectiveLocations.INPUT_FIELD_DEFINITION
  | .InputObject => true
  | .Enum => true
  | .Scalar => true
  | .Object => false
  | .Interface => false
  | .Union => false
  | .Keyword => false

/-- The filter of complete_union_member (completions.rs:179-182):
matches!(item.kind, CompletionItemKind::Object). -/
def union_member_filter (c : CompletionItem) : Bool :=
  match c.kind with
  | .Object => true
  | _ => false

/-- The filter of complete_directives (completions.rs:184-187). -/
def directive_filter (location : DirectiveLocations) (c : CompletionItem) : Bool :=
  match c.kind with
  | .Directive locs => DirectiveLocations.contains locs location
  | _ => false

/-- The seven keyword completions of complete_document (completions.rs:121-126). -/
def keyword_completions : List CompletionItem :=
  ["scalar", "enum", "struct", "union", "interface", "directive", "input"].map
    (fun s => ⟨s, .Keyword⟩)

/-- CompletionCtxt::completions (completions.rs:110-119), dispatching on the
inferred context over the neighborhood's Items. -/
def completions (ctx : Context) (project_items : List Items) :
    Except String (List CompletionItem) :=
  match ctx with
  | .Field =>
    match completion_items project_items with
    | .error e => .error e
    | .ok l => .ok (l.filter field_filter)
  | .Document => .ok keyword_completions
  | .UnionMembers =>
    match completion_items project_items with
    | .error e => .error e
    | .ok l => .ok (l.filter union_member_filter)
  | .InputField =>
    match completion_items project_items with
    | .error e => .error e
    | .ok l => .ok (l.filter input_field_filter)
  | .Directive loc =>
    match completion_items project_items with
    | .error e => .error e
    | .ok l => .ok (l.filter (directive_filter loc))

/-! ## Statement helpers and concrete inputs used by the theorems -/

/-- Specification helper: the per-file contribution of the resolve loop, the
item_map entry for the name lifted into ItemRes values for that file. -/
def res_block (db : DB) (name : String) (path : FileId) : List ItemRes :=
  ((ItemMap.get? (item_map (db.items path)) name).getD []).map
    (fun idx => ItemRes.mk path idx)

/-- Two disjoint projects: p1 holds only file 0 (no items), p2 holds only file 1,
which defines a type Foo.  File 1 is outside file 0's neighborhood. -/
def c1_db : DB where
  projects := [("p1", [0]), ("p2", [1])]
  items := fun f =>
    if f = 1 then [⟨⟨0, 20⟩, ⟨"Foo", ⟨5, 8⟩⟩, .TypeDefinition 0⟩] else []

/-- A resolver under which the name Baz is unresolved and every other name
resolves to one item. -/
def c2_resolver : FileId → Name → Res := fun _ n =>
  if n.name = "Baz" then .Err else .Item [⟨0, 0⟩]

/-- A file's items: two duplicate type Foo definitions followed by a type Bar. -/
def c3_items : List Item :=
  [⟨⟨0, 20⟩, ⟨"Foo", ⟨5, 8⟩⟩, .TypeDefinition 0⟩,
   ⟨⟨21, 41⟩, ⟨"Foo", ⟨26, 29⟩⟩, .TypeDefinition 1⟩,
   ⟨⟨42, 62⟩, ⟨"Bar", ⟨47, 50⟩⟩, .TypeDefinition 2⟩]

/-- One project whose file set enumerates file 1 before file 0; both files define
a type A at arena index 0. -/
def c4_db : DB where
  projects := [("p", [1, 0])]
  items := fun _ => [⟨⟨0, 20⟩, ⟨"A", ⟨5, 6⟩⟩, .TypeDefinition 0⟩]

/-- An ITEM holding an object type Foo. -/
def c5_good_item : Option DefNode :=
  some ⟨⟨9, 59⟩,
    .type_definition (some ⟨"object_type_definition", some ⟨"Foo", ⟨14, 17⟩⟩, none, []⟩)⟩

/-- An ITEM holding directive @d on FIELD.  FIELD is an executable location, not
one of the 11 SDL locations, yet it parses as a DIRECTIVE_LOCATION: the
repository's own test (gqls-ir/src/tests.rs, test_definitions) lowers this very
text. -/
def c5_bad_item : Option DefNode :=
  some ⟨⟨116, 137⟩,
    .directive_definition (some ⟨"d", ⟨127, 129⟩⟩) (some [⟨some "FIELD"⟩])⟩

/-- An ERROR syntax node. -/
def c9_error_child : SyntaxNode := .mk "ERROR" true []

/-- A node whose only named child is the ERROR node. -/
def c9_node : SyntaxNode := .mk "item" false [c9_error_child]

/-- A non-ERROR child node. -/
def c9_plain : SyntaxNode := .mk "object_type_definition" false []

/-- A node with two named children, one ERROR and one not. -/
def c9_two : SyntaxNode := .mk "item" false [c9_error_child, c9_plain]

/-- Items of one file: object type A, input object I, directive @q usable on
FIELD_DEFINITION, directive @r usable on OBJECT only. -/
def completion_example_items : Items where
  items := [⟨⟨0, 10⟩, ⟨"A", ⟨5, 6⟩⟩, .TypeDefinition 0⟩,
            ⟨⟨11, 20⟩, ⟨"I", ⟨16, 17⟩⟩, .TypeDefinition 1⟩,
            ⟨⟨21, 30⟩, ⟨"q", ⟨26, 27⟩⟩, .DirectiveDefinition 0⟩,
            ⟨⟨31, 40⟩, ⟨"r", ⟨36, 37⟩⟩, .DirectiveDefinition 1⟩]
  typedefs := [⟨false, .Object, [], none⟩, ⟨false, .Input, [], none⟩]
  directives := [⟨DirectiveLocations.FIELD_DEFINITION⟩, ⟨DirectiveLocations.OBJECT⟩]

/-! ## Theorems -/

theorem get?_push_idx (m : ItemMap) (k n : String) (i : Nat) :
    ItemMap.get? (push_idx m k i) n =
      if k = n then some (((ItemMap.get? m n).getD []) ++ [i]) else ItemMap.get? m n := by
  induction m with
  | nil =>
    by_cases h : k = n <;> simp [push_idx, ItemMap.get?, h]
  | cons hd rest ih =>
    obtain ⟨k', v'⟩ := hd
    by_cases h1 : k' = k
    · subst h1
      by_cases h2 : k' = n
      · subst h2
        simp [push_idx, ItemMap.get?]
      · simp [push_idx, ItemMap.get?, h2]
    · by_cases h2 : k' = n
      · subst h2
        have h3 : ¬k = k' := fun hh => h1 hh.symm
        simp [push_idx, ItemMap.get?, h1, h3]
      · simp [push_idx, ItemMap.get?, h1, h2, ih]

theorem item_map_foldl (ps : List (Nat × Item)) (m : ItemMap) (n : String) :
    ItemMap.get? (ps.foldl (fun m p => push_idx m p.2.name.name p.1) m) n =
      (if (ps.filter (fun p => p.2.name.name == n)).map Prod.fst = []
       then ItemMap.get? m n
       else some (((ItemMap.get? m n).getD [])
         ++ (ps.filter (fun p => p.2.name.name == n)).map Prod.fst)) := by
  induction ps generalizing m with
  | nil => simp
  | cons p rest ih =>
    by_cases h : p.2.name.name = n
    · simp only [List.foldl_cons, List.filter_cons, h, beq_self_eq_true, if_pos,
        List.map_cons, ih, get?_push_idx]
      by_cases hr : (rest.filter (fun p => p.2.name.name == n)).map Prod.fst = [] <;>
        simp [hr, h]
    · have hb : ¬(p.2.name.name == n) = true := by simp [h]
      have hf : List.filter (fun p => p.2.name.name == n) (p :: rest)
          = List.filter (fun p => p.2.name.name == n) rest := List.filter_cons_of_neg hb
      rw [List.foldl_cons, hf, ih, get?_push_idx, if_neg h]

/-- C3: item_map maps each name N to the list of the arena indices of exactly the
items whose name text equals N, in arena (source) order — duplicates preserved —
and the entry is absent (never an empty list) when no item bears the name. -/
theorem claim_c3 (items : List Item) (n : String) :
    (ItemMap.get? (item_map items) n =
      if (items.enum.filter (fun p => p.2.name.name == n)).map Prod.fst = []
      then none
      else some ((items.enum.filter (fun p => p.2.name.name == n)).map Prod.fst))
    ∧ ∀ l, ItemMap.get? (item_map items) n = some l → l ≠ [] := by
  have h := item_map_foldl items.enum [] n
  have hnil : ItemMap.get? ([] : ItemMap) n = none := rfl
  rw [hnil] at h
  simp only [Option.getD_none, List.nil_append] at h
  constructor
  · simpa [item_map] using h
  · intro l hl hcon
    rw [item_map] at hl
    rw [h] at hl
    subst hcon
    by_cases he : (items.enum.filter (fun p => p.2.name.name == n)).map Prod.fst = [] <;>
      simp [he] at hl

/-- Witness for C3: in a file with two duplicate type Foo items at arena indices 0
and 1, the item_map entry for Foo is the nonempty list [0, 1]. -/
theorem claim_c3_witness : ([0, 1] : List Nat) ≠ [] :=
  (claim_c3 c3_items "Foo").2 [0, 1] (by decide)

/-- C1: the resolve query (db.rs:35-46) iterates db.files() — every file of every
project — so with two disjoint projects it returns the Foo item of file 1 to a
query about file 0, although file 1 is not in file 0's neighborhood.  This
contradicts the claimed neighborhood bound; the spec itself flags the all-files
iteration as behavior not to replicate. -/
theorem claim_c1 :
    resolve c1_db "Foo" = [⟨1, 0⟩]
    ∧ neighborhood c1_db 0 = [0]
    ∧ ∃ r ∈ resolve c1_db "Foo", r.file ∉ neighborhood c1_db 0 := by
  decide

theorem resolve_with_foldl (db : DB) (name : String) (ord : List FileId)
    (acc : List ItemRes) :
    ord.foldl (fun acc path =>
      match ItemMap.get? (item_map (db.items path)) name with
      | some idxs => acc ++ idxs.map (fun idx => ItemRes.mk path idx)
      | none => acc) acc
      = acc ++ ord.flatMap (res_block db name) := by
  induction ord generalizing acc with
  | nil => simp
  | cons p rest ih =>
    simp only [List.foldl_cons, List.flatMap_cons]
    cases h : ItemMap.get? (item_map (db.items p)) name <;>
      simp [h, ih, res_block, List.append_assoc]

theorem resolve_with_eq (db : DB) (ord : List FileId) (name : String) :
    resolve_with db ord name = ord.flatMap (res_block db name) := by
  simpa [resolve_with] using resolve_with_foldl db name ord []

theorem filter_res_block (db : DB) (name : String) (g f : FileId) :
    (res_block db name g).filter (fun r => r.file == f)
      = if g = f then res_block db name g else [] := by
  by_cases h : g = f
  · subst h
    simp [res_block, List.filter_eq_self]
  · simp only [res_block, if_neg h]
    rw [List.filter_eq_nil_iff]
    intro r hr
    simp only [List.mem_map] at hr
    obtain ⟨i, _, rfl⟩ := hr
    simp [h]

theorem filter_flatMap_block (db : DB) (name : String) (f : FileId)
    (ord : List FileId) (hnd : ord.Nodup) :
    (ord.flatMap (res_block db name)).filter (fun r => r.file == f)
      = if f ∈ ord then res_block db name f else [] := by
  induction ord with
  | nil => simp
  | cons g rest ih =>
    obtain ⟨hg, hrest⟩ := List.nodup_cons.mp hnd
    rw [List.flatMap_cons, List.filter_append, filter_res_block, ih hrest]
    by_cases hgf : g = f
    · subst hgf
      simp [hg]
    · have hfg : ¬f = g := fun hh => hgf hh.symm
      simp [hgf, hfg]

/-- C4 counterexample: the claim that resolve's output sequence is ordered by
(file-id, idx) fails.  files(c4_db) is the set {0, 1}; under its enumeration
[1, 0] (the code iterates a hash set, whose order is unspecified — the canonical
model enumeration files c4_db is exactly [1, 0]) the output is
[(1, 0), (0, 0)], which is not sorted by (file-id, idx), and the enumeration
[0, 1] of the same set yields a different sequence. -/
theorem claim_c4_counterexample :
    List.Perm [1, 0] (files c4_db)
    ∧ resolve_with c4_db [1, 0] "A" = [⟨1, 0⟩, ⟨0, 0⟩]
    ∧ resolve c4_db "A" = [⟨1, 0⟩, ⟨0, 0⟩]
    ∧ ¬ List.Chain' (fun a b : ItemRes =>
          a.file < b.file ∨ (a.file = b.file ∧ a.idx ≤ b.idx))
        (resolve c4_db "A")
    ∧ List.Perm [0, 1] (files c4_db)
    ∧ resolve_with c4_db [0, 1] "A" ≠ resolve_with c4_db [1, 0] "A" := by
  refine ⟨by decide, by decide, by decide, ?_, by decide, by decide⟩
  have hres : resolve c4_db "A" = [⟨1, 0⟩, ⟨0, 0⟩] := by decide
  rw [hres]
  intro hch
  simp [List.chain'_cons] at hch

/-- C4 amended: resolve concatenates, over the file set in whatever order the set
is enumerated, each file's item_map entry for the name lifted to ItemRes, with the
within-file insertion order preserved; any two enumerations of the file set yield
permutations of each other (the multiset of results is deterministic), but the
cross-file sequence follows the enumeration order and need not be sorted by
(file-id, idx). -/
theorem claim_c4_amended (db : DB) (name : String) (ord ord' : List FileId)
    (h : ord.Perm (files db)) (h' : ord'.Perm (files db)) :
    (resolve_with db ord name).Perm (resolve_with db ord' name)
    ∧ ∀ f ∈ ord,
        (resolve_with db ord name).filter (fun r => r.file == f) = res_block db name f := by
  constructor
  · rw [resolve_with_eq, resolve_with_eq]
    exact (h.trans h'.symm).flatMap_right _
  · intro f hf
    have hnd : ord.Nodup := h.nodup_iff.mpr (List.nodup_dedup _)
    rw [resolve_with_eq, filter_flatMap_block db name f ord hnd, if_pos hf]

/-- Witness for C4 amended, at the concrete database and the two enumerations
[0, 1] and [1, 0] of its file set. -/
theorem claim_c4_amended_witness :
    (resolve_with c4_db [0, 1] "A").Perm (resolve_with c4_db [1, 0] "A")
    ∧ (resolve_with c4_db [0, 1] "A").filter (fun r => r.file == 0) = [⟨0, 0⟩] := by
  have h := claim_c4_amended c4_db "A" [0, 1] [1, 0] (by decide) (by decide)
  refine ⟨h.1, ?_⟩
  exact (h.2 0 (by decide)).trans (by decide)

/-- C2: lowering a named type reference with name N yields the sentinel Err(N)
together with exactly one UnresolvedType diagnostic at N's source range iff the
resolver returns the Err resolution for N in that file; when the resolution is a
non-empty item list the reference lowers to Named(N, resolution) and the
diagnostics are unchanged. -/
theorem claim_c2 (resolve_item : FileId → Name → Res) (file : FileId)
    (diagnostics : List Diagnostic) (node : NamedTypeNode) :
    (((lower_named_type resolve_item file diagnostics node).1.kind
        = TyKind.Err ⟨node.text, node.range⟩
      ∧ (lower_named_type resolve_item file diagnostics node).2
        = diagnostics ++ [⟨node.range, .UnresolvedType ⟨node.text, node.range⟩⟩])
      ↔ resolve_item file ⟨node.text, node.range⟩ = Res.Err)
    ∧ (∀ rs, rs ≠ [] → resolve_item file ⟨node.text, node.range⟩ = Res.Item rs →
        (lower_named_type resolve_item file diagnostics node).1.kind
          = TyKind.Named ⟨node.text, node.range⟩ (Res.Item rs)
        ∧ (lower_named_type resolve_item file diagnostics node).2 = diagnostics) := by
  constructor
  · constructor
    · rintro ⟨h1, _⟩
      cases hres : resolve_item file ⟨node.text, node.range⟩ with
      | Err => rfl
      | Item rs =>
        rw [lower_named_type] at h1
        simp only [hres] at h1
        simp [TypeIR.kind] at h1
    · intro hres
      rw [lower_named_type]
      simp [hres, TypeIR.kind]
  · intro rs _ hres
    rw [lower_named_type]
    simp [hres, TypeIR.kind]

/-- Witness for C2 at a resolver that fails on Baz: lowering the reference emits
exactly one UnresolvedType diagnostic at Baz's range. -/
theorem claim_c2_witness :
    (lower_named_type c2_resolver 0 [] ⟨"Baz", ⟨5, 8⟩⟩).2
      = [⟨⟨5, 8⟩, .UnresolvedType ⟨"Baz", ⟨5, 8⟩⟩⟩] := by
  have h := ((claim_c2 c2_resolver 0 [] ⟨"Baz", ⟨5, 8⟩⟩).1.mpr (by decide)).2
  simpa using h

/-- C5: the claim says an unknown directive-location token is fatal only for the
affected directive while the file's other items still lower and items(file)
returns a value; the code instead hits unreachable! (lower.rs:345-347), so the
whole items query aborts — lowering a file holding a type Foo and the directive
@d on FIELD panics, whereas the type Foo alone lowers fine.  The repository's own
test feeds exactly this directive text and expects items to succeed. -/
theorem claim_c5 :
    lower_file [c5_good_item, c5_bad_item]
      = .error "found invalid directive location: FIELD"
    ∧ lower_file [c5_good_item]
      = .ok ⟨[⟨⟨9, 59⟩, ⟨"Foo", ⟨14, 17⟩⟩, .TypeDefinition 0⟩],
             [⟨false, .Object, [], none⟩], []⟩ :=
  ⟨rfl, rfl⟩

/-- C6: the claim says body lowering never panics, for INT_VALUE tokens of any
length; but BodyCtxt::lower_value does t.parse().unwrap() (lower.rs:147), which
panics when the token exceeds the machine integer range — here a 20-digit
INT_VALUE. -/
theorem claim_c6 :
    lower_value (.mk (some (.int_value "99999999999999999999")))
      = .error "called Result::unwrap on an Err value" := by
  have hp : parse_i64 "99999999999999999999" = none := by decide
  simp [lower_value, hp]

theorem lower_kind_token (l : DirectiveLocation) :
    lower_directive_location_kind l.token = some l.flag := by
  cases l <;> rfl

theorem lower_locs_fold (locs : List DirectiveLocation) (acc : DirectiveLocations) :
    lower_directive_locations acc (locs.map (fun l => ⟨some l.token⟩))
      = .ok (locs.foldl (fun a l => a ||| l.flag) acc) := by
  induction locs generalizing acc with
  | nil => rfl
  | cons l rest ih =>
    simp only [List.map_cons, lower_directive_locations, lower_kind_token,
      List.foldl_cons]
    exact ih (acc ||| l.flag)

theorem testBit_fold (locs : List DirectiveLocation) (acc : DirectiveLocations)
    (i : Nat) :
    (locs.foldl (fun a l => a ||| l.flag) acc).testBit i = true
      ↔ acc.testBit i = true ∨ ∃ l ∈ locs, l.bit = i := by
  induction locs generalizing acc with
  | nil => simp
  | cons l rest ih =>
    rw [List.foldl_cons, ih]
    simp only [Nat.testBit_lor, DirectiveLocation.flag, Nat.testBit_two_pow,
      Bool.or_eq_true, decide_eq_true_eq, List.mem_cons]
    constructor
    · rintro (⟨ha | hb⟩ | ⟨l', hl', hb⟩)
      · exact Or.inl ha
      · exact Or.inr ⟨l, Or.inl rfl, hb⟩
      · exact Or.inr ⟨l', Or.inr hl', hb⟩
    · rintro (ha | ⟨l', hl' | hl', hb⟩)
      · exact Or.inl (Or.inl ha)
      · subst hl'
        exact Or.inl (Or.inr hb)
      · exact Or.inr ⟨l', hl', hb⟩

theorem contains_flag (s : DirectiveLocations) (l : DirectiveLocation) :
    DirectiveLocations.contains s l.flag = s.testBit l.bit := by
  unfold DirectiveLocations.contains DirectiveLocation.flag
  rw [Nat.and_two_pow]
  cases h : s.testBit l.bit
  · simp only [Bool.toNat_false, Nat.zero_mul, beq_eq_false_iff_ne, ne_eq]
    exact fun hh => (Nat.two_pow_pos l.bit).ne' hh.symm
  · simp

theorem bit_injective : ∀ l k : DirectiveLocation, l.bit = k.bit → l = k := by
  decide

/-- C7: lowering a directive definition whose on clause lists tokens drawn from
the 11 standard SDL locations succeeds and produces the bitwise union of the
listed locations' flags — a bit is set exactly when its location is listed. -/
theorem claim_c7 (locs : List DirectiveLocation) :
    lower_directive_locations 0 (locs.map (fun l => ⟨some l.token⟩))
      = .ok (locs.foldl (fun a l => a ||| l.flag) 0)
    ∧ ∀ l : DirectiveLocation,
        DirectiveLocations.contains (locs.foldl (fun a l => a ||| l.flag) 0) l.flag
            = true
          ↔ l ∈ locs := by
  refine ⟨lower_locs_fold locs 0, fun l => ?_⟩
  rw [contains_flag, testBit_fold]
  simp only [Nat.zero_testBit, Bool.false_eq_true, false_or]
  constructor
  · rintro ⟨l', hl', hb⟩
    exact (bit_injective l' l hb) ▸ hl'
  · intro hl
    exact ⟨l, hl, rfl⟩

/-- Witness for C7 at directive @qux on FIELD_DEFINITION | OBJECT | INPUT_OBJECT:
the lowered bitset is the union of exactly those three flags (8 + 128 + 32). -/
theorem claim_c7_witness :
    lower_directive_locations 0
      (([.FIELD_DEFINITION, .OBJECT, .INPUT_OBJECT] : List DirectiveLocation).map
        (fun l => ⟨some l.token⟩))
      = .ok 168
    ∧ DirectiveLocation.OBJECT
        ∈ ([.FIELD_DEFINITION, .OBJECT, .INPUT_OBJECT] : List DirectiveLocation) := by
  have h := claim_c7 [.FIELD_DEFINITION, .OBJECT, .INPUT_OBJECT]
  exact ⟨h.1.trans (by rfl), (h.2 .OBJECT).mp (by decide)⟩

/-- C9 counterexample: the claim that the sole-named-child primitive never
returns an ERROR node is false — for a node whose single named child is an ERROR
node, the else branch (named_child_count not above 1, gqls-syntax lib.rs:146)
returns that ERROR node unfiltered. -/
theorem claim_c9_counterexample :
    sole_named_child c9_node = .ok (some c9_error_child)
    ∧ c9_error_child.is_error = true :=
  ⟨rfl, rfl⟩

/-- C9 amended: when the node has more than one named child the primitive ignores
ERROR nodes — it never returns an ERROR node, returning the unique non-ERROR
named child when exactly one exists and None when none exists (and panicking when
several exist); with at most one named child, that child is returned unfiltered
even if it is an ERROR node. -/
theorem claim_c9_amended (n : SyntaxNode) (h : n.named_child_count > 1) :
    (∀ c, sole_named_child n = .ok (some c) → c.is_error = false)
    ∧ (n.named_children.filter (fun c => !c.is_error) = [] →
        sole_named_child n = .ok none)
    ∧ (∀ c, n.named_children.filter (fun c => !c.is_error) = [c] →
        sole_named_child n = .ok (some c)) := by
  unfold sole_named_child
  rw [if_pos h]
  refine ⟨?_, ?_, ?_⟩
  · intro c hc
    cases hfil : n.named_children.filter (fun c => !c.is_error) with
    | nil =>
      rw [hfil] at hc
      exact absurd hc (by simp)
    | cons a rest =>
      cases rest with
      | nil =>
        rw [hfil] at hc
        have hac : a = c := by simpa using hc
        have ha : a ∈ n.named_children.filter (fun c => !c.is_error) := by
          rw [hfil]
          exact List.mem_singleton_self a
        have hpred := (List.mem_filter.mp ha).2
        rw [← hac]
        simpa using hpred
      | cons b rest' =>
        rw [hfil] at hc
        exact absurd hc (by simp)
  · intro hf
    rw [hf]
  · intro c hf
    rw [hf]

/-- Witness for C9 amended at a node with two named children, one ERROR and one
not: the non-ERROR child is returned and is not an ERROR node. -/
theorem claim_c9_amended_witness : c9_plain.is_error = false := by
  have h := claim_c9_amended c9_two (by decide)
  exact h.1 c9_plain (by rfl)

theorem mem_completion_items_of (its : Items) (l : List Item)
    (cs : List CompletionItem) (h : completion_items_of its l = .ok cs)
    (c : CompletionItem) :
    c ∈ cs ↔ ∃ it ∈ l, completion_kind its it = .ok c.kind ∧ it.name.name = c.label := by
  induction l generalizing cs with
  | nil =>
    rw [completion_items_of] at h
    obtain rfl : ([] : List CompletionItem) = cs := by simpa using h
    simp
  | cons it rest ih =>
    rw [completion_items_of] at h
    cases hk : completion_kind its it with
    | error e => rw [hk] at h; exact absurd h (by simp)
    | ok k =>
      rw [hk] at h
      cases hr : completion_items_of its rest with
      | error e => rw [hr] at h; exact absurd h (by simp)
      | ok l' =>
        rw [hr] at h
        obtain rfl : (⟨it.name.name, k⟩ : CompletionItem) :: l' = cs := by simpa using h
        obtain ⟨lab, kd⟩ := c
        constructor
        · intro hmem
          rcases List.mem_cons.mp hmem with heq | hmem'
          · obtain ⟨rfl, rfl⟩ : lab = it.name.name ∧ kd = k := by simpa using heq
            exact ⟨it, List.mem_cons_self it rest, hk, rfl⟩
          · obtain ⟨x, hx, hp⟩ := (ih l' hr).mp hmem'
            exact ⟨x, List.mem_cons_of_mem _ hx, hp⟩
        · rintro ⟨x, hx, hkx, hlx⟩
          rcases List.mem_cons.mp hx with rfl | hx'
          · rw [hk] at hkx
            injection hkx with hkd
            exact List.mem_cons.mpr (Or.inl (by rw [hlx, hkd]))
          · exact List.mem_cons.mpr (Or.inr ((ih l' hr).mpr ⟨x, hx', hkx, hlx⟩))

theorem mem_completion_items (pits : List Items) (cs : List CompletionItem)
    (h : completion_items pits = .ok cs) (c : CompletionItem) :
    c ∈ cs ↔ ∃ its ∈ pits, ∃ it ∈ its.items,
      completion_kind its it = .ok c.kind ∧ it.name.name = c.label := by
  induction pits generalizing cs with
  | nil =>
    rw [completion_items] at h
    obtain rfl : ([] : List CompletionItem) = cs := by simpa using h
    simp
  | cons its rest ih =>
    rw [completion_items] at h
    cases h1 : completion_items_of its its.items with
    | error e => rw [h1] at h; exact absurd h (by simp)
    | ok l1 =>
      rw [h1] at h
      cases h2 : completion_items rest with
      | error e => rw [h2] at h; exact absurd h (by simp)
      | ok l2 =>
        rw [h2] at h
        obtain rfl : l1 ++ l2 = cs := by simpa using h
        simp only [List.mem_append, List.mem_cons,
          mem_completion_items_of its its.items l1 h1 c, ih l2 h2]
        constructor
        · rintro (hin | hin)
          · exact ⟨its, Or.inl rfl, hin⟩
          · obtain ⟨its', hits', hin⟩ := hin
            exact ⟨its', Or.inr hits', hin⟩
        · rintro ⟨its', hits' | hits', hin⟩
          · subst hits'
            exact Or.inl hin
          · exact Or.inr ⟨its', hits', hin⟩

theorem field_filter_iff (c : CompletionItem) :
    field_filter c = true
      ↔ (c.kind = .Object ∨ c.kind = .Interface ∨ c.kind = .Enum ∨ c.kind = .Scalar
          ∨ c.kind = .Union
          ∨ ∃ locs, c.kind = .Directive locs
              ∧ DirectiveLocations.contains locs DirectiveLocations.FIELD_DEFINITION
                  = true) := by
  obtain ⟨lab, kd⟩ := c
  cases kd <;> simp [field_filter]

/-- C8: with the inferred context Field, completions returns exactly the
neighborhood's items whose kind is Object, Interface, Enum, Scalar or Union, plus
the directive definitions whose location bitset contains FIELD_DEFINITION;
InputObject items and Keyword items are never returned. -/
theorem claim_c8 (pits : List Items) (out : List CompletionItem)
    (h : completions .Field pits = .ok out) :
    (∀ c, c ∈ out ↔
      (∃ its ∈ pits, ∃ it ∈ its.items,
          completion_kind its it = .ok c.kind ∧ it.name.name = c.label)
        ∧ (c.kind = .Object ∨ c.kind = .Interface ∨ c.kind = .Enum ∨ c.kind = .Scalar
            ∨ c.kind = .Union
            ∨ ∃ locs, c.kind = .Directive locs
                ∧ DirectiveLocations.contains locs DirectiveLocations.FIELD_DEFINITION
                    = true))
    ∧ ∀ c ∈ out, c.kind ≠ .InputObject ∧ c.kind ≠ .Keyword := by
  rw [completions] at h
  cases hl : completion_items pits with
  | error e => rw [hl] at h; exact absurd h (by simp)
  | ok l =>
    rw [hl] at h
    obtain rfl : l.filter field_filter = out := by simpa using h
    constructor
    · intro c
      rw [List.mem_filter, mem_completion_items pits l hl c, field_filter_iff]
    · intro c hc
      have hf := (List.mem_filter.mp hc).2
      rw [field_filter_iff] at hf
      rcases hf with hf | hf | hf | hf | hf | ⟨locs, hf, _⟩ <;> rw [hf] <;> simp

/-- Witness for C8 at a file holding an object type A, an input object I, a
directive @q on FIELD_DEFINITION and a directive @r on OBJECT: the InputObject
item I is not among the completions returned for the Field context. -/
theorem claim_c8_witness :
    (⟨"I", .InputObject⟩ : CompletionItem)
      ∉ [(⟨"A", .Object⟩ : CompletionItem),
         ⟨"q", .Directive DirectiveLocations.FIELD_DEFINITION⟩] := by
  have h := claim_c8 [completion_example_items]
    [⟨"A", .Object⟩, ⟨"q", .Directive DirectiveLocations.FIELD_DEFINITION⟩] (by rfl)
  intro hmem
  exact (h.2 _ hmem).1 rfl

theorem union_member_filter_iff (c : CompletionItem) :
    union_member_filter c = true ↔ c.kind = .Object := by
  obtain ⟨lab, kd⟩ := c
  cases kd <;> simp [union_member_filter]

/-- C10: with the inferred context UnionMembers, every completion item returned
has kind Object — the candidate filter keeps exactly the object type definitions
of the project's items, excluding interfaces, enums, scalars, unions, input
objects, directive definitions and keywords. -/
theorem claim_c10 (pits : List Items) (out : List CompletionItem)
    (h : completions .UnionMembers pits = .ok out) :
    (∀ c, c ∈ out ↔
      (∃ its ∈ pits, ∃ it ∈ its.items,
          completion_kind its it = .ok c.kind ∧ it.name.name = c.label)
        ∧ c.kind = .Object)
    ∧ ∀ c ∈ out, c.kind = .Object := by
  rw [completions] at h
  cases hl : completion_items pits with
  | error e => rw [hl] at h; exact absurd h (by simp)
  | ok l =>
    rw [hl] at h
    obtain rfl : l.filter union_member_filter = out := by simpa using h
    constructor
    · intro c
      rw [List.mem_filter, mem_completion_items pits l hl c, union_member_filter_iff]
    · intro c hc
      have hf := (List.mem_filter.mp hc).2
      exact (union_member_filter_iff c).mp hf

/-- Witness for C10 at the same file: only the object type A is returned for the
UnionMembers context, and its kind is Object. -/
theorem claim_c10_witness :
    (⟨"A", CompletionItemKind.Object⟩ : CompletionItem).kind = .Object := by
  have h := claim_c10 [completion_example_items] [⟨"A", .Object⟩] (by rfl)
  exact h.2 ⟨"A", .Object⟩ (by decide)

end Gqls
